import Mathlib

/-!
Shallow embedding of the analytics core of `analise_excel.py` (a Streamlit
application tracking agricultural production and input costs), together with
proofs of the specification's testable properties.

Conventions of the embedding:
* pandas/numpy floats are modelled as `ℚ`; where float division by zero is
  observable (it yields `inf`/`-inf`/`NaN` rather than raising), results are
  wrapped in `PFloat`, which tags those IEEE special values explicitly.
* A raw spreadsheet table (`pd.DataFrame` straight from `pd.read_excel`) is a
  `Df`: a row count plus an ordered list of named columns of cells.
* `Cell.date y m d` models a pandas datetime value together with its canonical
  `%Y-%m-%d` rendering produced by `.dt.strftime`; `pd.to_datetime` reparses
  that rendering to the same calendar date, which the constructor captures
  directly.  `Cell.null` models `NaN`/`NaT`.  A numeric cell is modelled as
  unparseable as a date (the epoch-nanoseconds interpretation pandas would
  apply to it is irrelevant to every claim below).
-/

namespace AnaliseExcel

/-- A cell of a raw spreadsheet table. -/
inductive Cell where
  | str (s : String)
  | num (q : ℚ)
  | date (y m d : Nat)
  | null
deriving DecidableEq, Repr

/-- Decimal digit test on a character (ASCII `'0'`..`'9'`). -/
def isDigitCh (c : Char) : Bool := 48 ≤ c.toNat && c.toNat ≤ 57

/-- Read a nonempty all-digit character list as a natural number. -/
def readNat? (l : List Char) : Option Nat :=
  if l.isEmpty then none
  else if l.all isDigitCh then some (l.foldl (fun a c => a * 10 + (c.toNat - 48)) 0)
  else none

/-- Split a character list on `'-'`. -/
def splitDash : List Char → List (List Char)
  | [] => [[]]
  | c :: cs =>
    let r := splitDash cs
    if c = '-' then [] :: r
    else
      match r with
      | [] => [[c]]
      | g :: gs => (c :: g) :: gs

/-- Permissive `YYYY-MM-DD` (optionally followed by a time-of-day after a
space) date parse, modelling the formats `pd.to_datetime` accepts for the
strings this pipeline produces and the common spreadsheet inputs. -/
def parseDateString (s : String) : Option (Nat × Nat × Nat) :=
  match (splitDash (s.data.takeWhile (fun c => c ≠ ' '))).map readNat? with
  | [some y, some m, some d] =>
    if 1 ≤ m ∧ m ≤ 12 ∧ 1 ≤ d ∧ d ≤ 31 then some (y, m, d) else none
  | _ => none

/-- `pd.to_datetime(_, errors="coerce")` on one cell: a parsed calendar date,
or `none` (NaT) on anything unparseable. -/
def to_datetime (c : Cell) : Option (Nat × Nat × Nat) :=
  match c with
  | .str s => parseDateString s
  | .date y m d => some (y, m, d)
  | .num _ => none
  | .null => none

/-- `pd.to_datetime(_, errors="coerce").dt.strftime('%Y-%m-%d')` on one cell:
the canonical rendering of the parsed date, or the null sentinel (`strftime`
maps NaT to NaN). -/
def dateNorm (c : Cell) : Cell :=
  match to_datetime c with
  | some d => Cell.date d.1 d.2.1 d.2.2
  | none => Cell.null

/-- A raw tabular record set: row count and ordered named columns. -/
structure Df where
  nrows : Nat
  cols : List (String × List Cell)
deriving DecidableEq, Repr

/-- The column names, in order. -/
def Df.names (df : Df) : List String := df.cols.map Prod.fst

/-- The cells of the first column named `n`, if any. -/
def getCol (df : Df) (n : String) : Option (List Cell) :=
  (df.cols.find? (fun p => decide (p.1 = n))).map Prod.snd

/-- The alias table of `normalizar_colunas`:
`col_map.get(c, c)` for each column name `c`. -/
def col_map (c : String) : String :=
  if c = "Estufa" then "estufa"
  else if c = "Área" then "estufa"
  else if c = "Produção" then "caixas"
  else if c = "Primeira" then "caixas"
  else if c = "Segunda" then "caixas_segunda"
  else if c = "Qtd" then "caixas"
  else if c = "Quantidade" then "caixas"
  else if c = "Data" then "data"
  else c

/-- `df.rename(columns={c: col_map.get(c, c) for c in df.columns})`. -/
def renameCols (df : Df) : Df :=
  ⟨df.nrows, df.cols.map (fun p => (col_map p.1, p.2))⟩

/-- `if "data" in df.columns: df["data"] = pd.to_datetime(df["data"],
errors="coerce").dt.strftime('%Y-%m-%d')`.  Every column named `data` is
normalized cell-wise. -/
def coerceDates (df : Df) : Df :=
  if "data" ∈ df.names then
    ⟨df.nrows, df.cols.map (fun p => if p.1 = "data" then (p.1, p.2.map dateNorm) else p)⟩
  else df

/-- `if col not in df.columns: df[col] = fill` — append a constant column. -/
def ensureCol (n : String) (fill : Cell) (df : Df) : Df :=
  if n ∈ df.names then df
  else ⟨df.nrows, df.cols ++ [(n, List.replicate df.nrows fill)]⟩

/-- The canonical numeric columns filled with `0` when missing. -/
def numericCols : List String :=
  ["caixas", "caixas_segunda", "temperatura", "umidade", "chuva"]

/-- `normalizar_colunas`: rename aliases, coerce the date column, create the
missing canonical numeric columns filled with `0` and the missing text
columns `estufa`/`cultura` filled with `""`. -/
def normalizar_colunas (df : Df) : Df :=
  let df1 := renameCols df
  let df2 := coerceDates df1
  let df3 := numericCols.foldl (fun d c => ensureCol c (Cell.num 0) d) df2
  let df4 := ensureCol "estufa" (Cell.str "") df3
  ensureCol "cultura" (Cell.str "") df4

/-!
## Float results of unguarded division

pandas float division never raises: `x / 0` is `inf`, `-inf` or `NaN`
depending on the sign of `x`.  `PFloat` tags these IEEE outcomes explicitly so
that theorems can distinguish a genuine `0` fallback from a silent `inf`/`NaN`.
-/

/-- A pandas float result: a finite rational or an IEEE special value. -/
inductive PFloat where
  | val (q : ℚ)
  | pinf
  | ninf
  | nan
deriving DecidableEq, Repr

/-- Float division as pandas performs it (never raises). -/
def pdiv (a b : ℚ) : PFloat :=
  if b ≠ 0 then .val (a / b)
  else if 0 < a then .pinf
  else if a < 0 then .ninf
  else .nan

/-- Multiplication by a positive constant (used only with `100`), which fixes
the IEEE special values. -/
def pscale (x : PFloat) (c : ℚ) : PFloat :=
  match x with
  | .val q => .val (q * c)
  | .pinf => .pinf
  | .ninf => .ninf
  | .nan => .nan

/-- `.round(p)` on a float column entry; IEEE special values round to
themselves.  (Mathlib's `round` is half-up where pandas is half-even; no
statement below sits on a half-way point.) -/
def rnd (p : Nat) (x : PFloat) : PFloat :=
  match x with
  | .val q => .val ((round (q * 10 ^ p) : ℤ) / 10 ^ p)
  | x => x

/-!
## The record tables

After loading, the `producao` and `insumos` SQLite tables have a fixed schema
(one structure field per column, `id` omitted as it never enters analytics).
-/

/-- A row of the `producao` table. -/
structure Producao where
  data : Cell
  estufa : String
  cultura : String
  caixas : ℚ
  caixas_segunda : ℚ
  temperatura : ℚ
  umidade : ℚ
  chuva : ℚ
  observacao : String
deriving DecidableEq, Repr

/-- A row of the `insumos` table. -/
structure Insumo where
  data : Cell
  estufa : String
  cultura : String
  tipo : String
  quantidade : ℚ
  unidade : String
  custo_unitario : ℚ
  custo_total : ℚ
  fornecedor : String
  lote : String
  observacoes : String
deriving DecidableEq, Repr

/-!
## `groupby` over record lists

`df.groupby(key)[cols].sum()` is modelled as: the distinct key values, each
paired with the sum of the measure over the matching rows.  (pandas emits the
group keys sorted; the claims below are order-independent, and the key list
here is in last-seen-first order with no duplicates.)
-/

/-- The distinct values of `f` over `l` (no duplicates). -/
def keysOf (f : α → String) : List α → List String
  | [] => []
  | a :: l =>
    let ks := keysOf f l
    if f a ∈ ks then ks else f a :: ks

/-- Sum of measure `g` over the rows of `l` whose key is `k`. -/
def groupSum (f : α → String) (g : α → ℚ) (l : List α) (k : String) : ℚ :=
  ((l.filter (fun a => decide (f a = k))).map g).sum

/-!
## KPI and financial computations (Dashboard and Análise pages)

Everywhere the source reads `config.get('preco_medio_caixa', 30)` the price is
taken as an explicit parameter `preco`; the shipped configuration default is
`30`.  There is a single global per-box price, applied to grade-1 (`caixas`)
counts only — the source has no per-crop or per-grade price table.
-/

/-- The shipped `preco_medio_caixa` configuration default. -/
def preco_medio_caixa_default : ℚ := 30

/-- `df_prod["caixas"].sum()` (`0` when empty, as on the Dashboard). -/
def total_caixas (prod : List Producao) : ℚ := (prod.map Producao.caixas).sum

/-- `df_prod["caixas_segunda"].sum()`. -/
def total_segunda (prod : List Producao) : ℚ :=
  (prod.map Producao.caixas_segunda).sum

/-- `df_ins["custo_total"].sum()`. -/
def total_insumos (ins : List Insumo) : ℚ := (ins.map Insumo.custo_total).sum

/-- `receita_estimada = total_caixas * config.get("preco_medio_caixa", 30)`. -/
def receita_estimada (preco : ℚ) (prod : List Producao) : ℚ :=
  total_caixas prod * preco

/-- `lucro_estimado = receita_estimada - total_insumos if receita_estimada
else 0` (Python truthiness: a `0.0` revenue selects the `else`). -/
def lucro_estimado (preco : ℚ) (prod : List Producao) (ins : List Insumo) : ℚ :=
  if receita_estimada preco prod ≠ 0 then receita_estimada preco prod - total_insumos ins
  else 0

/-- Row-level `pct_segunda` via `np.where((c+s) > 0, s/(c+s)*100, 0)`. -/
def pct_segunda (caixas caixas_segunda : ℚ) : ℚ :=
  if 0 < caixas + caixas_segunda then caixas_segunda / (caixas + caixas_segunda) * 100
  else 0

/-- A row of the per-crop production breakdown (`prod_cultura`). -/
structure CulturaRow where
  cultura : String
  caixas : ℚ
  caixas_segunda : ℚ
  total : ℚ
  pct2 : PFloat
deriving DecidableEq, Repr

/-- `prod_cultura = df.groupby('cultura')[['caixas','caixas_segunda']].sum()`
with `Total = caixas + caixas_segunda` and
`'% 2ª' = (caixas_segunda / Total * 100).round(1)` (unguarded division). -/
def prod_cultura (prod : List Producao) : List CulturaRow :=
  (keysOf Producao.cultura prod).map fun k =>
    let cx := groupSum Producao.cultura Producao.caixas prod k
    let sg := groupSum Producao.cultura Producao.caixas_segunda prod k
    ⟨k, cx, sg, cx + sg, rnd 1 (pscale (pdiv sg (cx + sg)) 100)⟩

/-- `receita_por_cultura`: per-crop grade-1 box sum and its revenue at the
single global price — entries are `(cultura, caixas, Receita)`. -/
def receita_por_cultura (preco : ℚ) (prod : List Producao) :
    List (String × ℚ × ℚ) :=
  (keysOf Producao.cultura prod).map fun k =>
    let cx := groupSum Producao.cultura Producao.caixas prod k
    (k, cx, cx * preco)

/-- `custos_por_cultura = df_ins.groupby('cultura')['custo_total'].sum()`. -/
def custos_por_cultura (ins : List Insumo) : List (String × ℚ) :=
  (keysOf Insumo.cultura ins).map fun k =>
    (k, groupSum Insumo.cultura Insumo.custo_total ins k)

/-- The `custo_total` a left merge with `custos_por_cultura` followed by
`fillna(0)` attaches to crop `k`. -/
def custoMerged (ins : List Insumo) (k : String) : ℚ :=
  match (custos_por_cultura ins).find? (fun p => decide (p.1 = k)) with
  | some p => p.2
  | none => 0

/-- A row of the per-crop profitability table (`rentabilidade`). -/
structure RentRow where
  cultura : String
  caixas : ℚ
  receita : ℚ
  custo_total : ℚ
  lucro : ℚ
  margem : PFloat
  roi : PFloat
deriving DecidableEq, Repr

/-- `rentabilidade = merge(receita_por_cultura, custos_por_cultura,
how='left').fillna(0)` with `Lucro = Receita - custo_total`,
`Margem = (Lucro/Receita*100).round(1)` and `ROI = (Lucro/custo_total*100)
.round(1)` — both divisions unguarded. -/
def rentabilidade (preco : ℚ) (prod : List Producao) (ins : List Insumo) :
    List RentRow :=
  (keysOf Producao.cultura prod).map fun k =>
    let cx := groupSum Producao.cultura Producao.caixas prod k
    let re := cx * preco
    let ct := custoMerged ins k
    ⟨k, cx, re, ct, re - ct,
      rnd 1 (pscale (pdiv (re - ct) re) 100),
      rnd 1 (pscale (pdiv (re - ct) ct) 100)⟩

/-- `producao_por_cultura = df_prod.groupby('cultura')['caixas'].sum()`. -/
def producao_por_cultura (prod : List Producao) : List (String × ℚ) :=
  (keysOf Producao.cultura prod).map fun k =>
    (k, groupSum Producao.cultura Producao.caixas prod k)

/-- A row of the cost-efficiency table (`eficiencia`). -/
structure EficienciaRow where
  cultura : String
  custo_total : ℚ
  caixas : ℚ
  custo_por_caixa : PFloat
deriving DecidableEq, Repr

/-- `eficiencia = merge(custos_por_cultura, producao_por_cultura,
how='inner')` with `'Custo por Caixa' = (custo_total/caixas).round(2)`
(unguarded division). -/
def eficiencia (prod : List Producao) (ins : List Insumo) :
    List EficienciaRow :=
  (custos_por_cultura ins).filterMap fun p =>
    match (producao_por_cultura prod).find? (fun q => decide (q.1 = p.1)) with
    | some q => some ⟨p.1, p.2, q.2, rnd 2 (pdiv p.2 q.2)⟩
    | none => none

/-- `receita_total = df_prod_filtrado['caixas'].sum() * preco`. -/
def receita_total (preco : ℚ) (prod : List Producao) : ℚ :=
  total_caixas prod * preco

/-- `lucro_total = receita_total - custo_total` (all cost records summed). -/
def lucro_total (preco : ℚ) (prod : List Producao) (ins : List Insumo) : ℚ :=
  receita_total preco prod - total_insumos ins

/-- `margem_total = (lucro_total / receita_total * 100) if receita_total > 0
else 0`. -/
def margem_total (preco : ℚ) (prod : List Producao) (ins : List Insumo) : ℚ :=
  if 0 < receita_total preco prod then
    lucro_total preco prod ins / receita_total preco prod * 100
  else 0

/-- The `custo_total` value stored by the insumos form: the form field is
first auto-filled as `custo_unitario * quantidade` when the user left it `0`
and both factors are positive, then the insert falls back to the product once
more when the field is still not positive. -/
def custo_total_salvo (qtd custo_unitario custo_total_digitado : ℚ) : ℚ :=
  let ct :=
    if 0 < custo_unitario ∧ 0 < qtd ∧ custo_total_digitado = 0 then
      custo_unitario * qtd
    else custo_total_digitado
  if 0 < ct then ct else custo_unitario * qtd

/-!
## Trend forecasting

The repository source under `src/` contains no TrendForecaster implementation;
the spec (§4.6) is the only description of it.
-/

/-- The mutually exclusive result variants of one forecast call (§3). -/
inductive ForecastResult where
  | insufficientData
  | regression (next_period_forecast model_fit_score : ℚ)
      (feature_importance : List (String × ℚ)) (trend_label : String)
  | simpleStats (monthly_trend_pct : ℚ)
      (climate_correlations : List (String × PFloat))
      (monthly_forecast : ℚ) (trend_label : String)
  | analysisError (cause : String)
deriving DecidableEq, Repr

/-- Modelled from the spec: the repository source has no forecaster, so §4.6
is embedded — two interchangeable strategies selected by record-count
thresholds (5 for the simple strategy's minimum, 10 for the regression
strategy's minimum); below the 5-record floor the insufficient-data signal is
returned without invoking either strategy.  The strategies are parameters, so
theorems about the gate hold for every possible strategy body. -/
def forecast (simpleStrategy regressionStrategy : List Producao → ForecastResult)
    (records : List Producao) : ForecastResult :=
  if records.length < 5 then .insufficientData
  else if records.length < 10 then simpleStrategy records
  else regressionStrategy records

/-!
## Concrete inputs used by counterexamples and witnesses
-/

/-- A production row, defaulting the climate fields. -/
def mkProd (cultura : String) (caixas caixas_segunda : ℚ) : Producao :=
  ⟨Cell.date 2024 1 5, "E1", cultura, caixas, caixas_segunda, 25, 65, 0, ""⟩

/-- A cost row, defaulting the descriptive fields. -/
def mkIns (cultura : String) (custo_total : ℚ) : Insumo :=
  ⟨Cell.date 2024 1 5, "E1", cultura, "Semente", 1, "kg", 0, custo_total, "", "", ""⟩

/-- The spec §8 Kale scenario: 10 grade-1 and 5 grade-2 boxes of a crop with
no dedicated price entry. -/
def kaleProd : List Producao := [mkProd "Kale" 10 5]

/-- One cost record worth 100. -/
def ins100 : List Insumo := [mkIns "Couve" 100]

/-- A crop whose production rows have zero boxes of both grades. -/
def zeroProd : List Producao := [mkProd "Alface" 0 0]

/-- A crop with revenue but no cost rows (its merged cost is `fillna(0)`). -/
def tomateProd : List Producao := [mkProd "Tomate" 10 0]

/-- A cost row for a crop with no production rows. -/
def alfaceIns : List Insumo := [mkIns "Alface" 50]

/-- Four production records (below the 5-record forecast floor). -/
def fourRecords : List Producao :=
  [mkProd "Tomate" 1 0, mkProd "Tomate" 2 0, mkProd "Tomate" 3 0,
   mkProd "Tomate" 4 1]

/-- A raw table with a parseable and an unparseable date and a `Qtd` alias
column, missing every other canonical column. -/
def rawDf : Df :=
  ⟨2, [("Data", [Cell.str "2024-01-05", Cell.str "sem data"]),
       ("Qtd", [Cell.num 3, Cell.num 4])]⟩

/-!
## Predicates and helpers used by the proofs
-/

/-- Every column name is a `col_map` fixed point. -/
def ColNamesFixed (df : Df) : Prop := ∀ p ∈ df.cols, col_map p.1 = p.1

/-- Every cell of every `data` column is a `dateNorm` fixed point. -/
def DataFixed (df : Df) : Prop :=
  ∀ p ∈ df.cols, p.1 = "data" → ∀ c ∈ p.2, dateNorm c = c

/-- All canonical fill-in columns are present. -/
def CanonPresent (df : Df) : Prop :=
  ∀ n ∈ numericCols ++ ["estufa", "cultura"], n ∈ df.names

/-- A sequence of `ensureCol` steps. -/
def ensureChain (l : List (String × Cell)) (d : Df) : Df :=
  l.foldl (fun d p => ensureCol p.1 p.2 d) d

/-- The seven fill-in columns of `normalizar_colunas`, with their fills, in
application order. -/
def fillCols : List (String × Cell) :=
  [("caixas", Cell.num 0), ("caixas_segunda", Cell.num 0),
   ("temperatura", Cell.num 0), ("umidade", Cell.num 0), ("chuva", Cell.num 0),
   ("estufa", Cell.str ""), ("cultura", Cell.str "")]

/-!
## Grouping lemmas
-/

theorem mem_keysOf {f : α → String} {l : List α} {k : String} :
    k ∈ keysOf f l ↔ k ∈ l.map f := by
  induction l with
  | nil => simp [keysOf]
  | cons a l ih =>
    simp only [keysOf, List.map_cons, List.mem_cons]
    split
    · next h =>
      rw [ih]
      constructor
      · exact Or.inr
      · rintro (rfl | hk)
        · exact ih.mp h
        · exact hk
    · simp [List.mem_cons, ih]

theorem keysOf_nodup (f : α → String) (l : List α) : (keysOf f l).Nodup := by
  induction l with
  | nil => simp [keysOf]
  | cons a l ih =>
    simp only [keysOf]
    split
    · exact ih
    · next h => exact ih.cons h

theorem groupSum_cons (f : α → String) (g : α → ℚ) (a : α) (l : List α)
    (k : String) :
    groupSum f g (a :: l) k =
      if f a = k then g a + groupSum f g l k else groupSum f g l k := by
  by_cases h : f a = k
  · simp [groupSum, List.filter_cons, h]
  · simp [groupSum, List.filter_cons, h]

theorem groupSum_eq_zero {f : α → String} {l : List α} {k : String}
    (h : ∀ a ∈ l, f a ≠ k) (g : α → ℚ) : groupSum f g l k = 0 := by
  induction l with
  | nil => simp [groupSum]
  | cons a l ih =>
    rw [groupSum_cons, if_neg (h a (List.mem_cons_self a l))]
    exact ih fun b hb => h b (List.mem_cons_of_mem a hb)

theorem sum_map_if_mem {ks : List String} (hnd : ks.Nodup) {k0 : String}
    (hk : k0 ∈ ks) (c : ℚ) (g : String → ℚ) :
    (ks.map fun k => if k = k0 then c + g k else g k).sum =
      c + (ks.map g).sum := by
  induction ks with
  | nil => cases hk
  | cons a ks ih =>
    rcases List.mem_cons.mp hk with h | h
    · subst h
      have hnin : k0 ∉ ks := (List.nodup_cons.mp hnd).1
      have hmap : (ks.map fun k => if k = k0 then c + g k else g k) = ks.map g := by
        refine List.map_congr_left fun b hb => ?_
        exact if_neg (fun hb0 : b = k0 => hnin (hb0 ▸ hb))
      simp only [List.map_cons, List.sum_cons]
      rw [hmap]
      simp only [if_true]
      ring
    · have hne : a ≠ k0 := fun ha => (List.nodup_cons.mp hnd).1 (ha ▸ h)
      simp only [List.map_cons, List.sum_cons, if_neg hne]
      rw [ih (List.nodup_cons.mp hnd).2 h]; ring

/-- Summing a measure group-by-group over the distinct keys recovers the
plain sum over all rows. -/
theorem sum_groupSum (f : α → String) (g : α → ℚ) (l : List α) :
    ((keysOf f l).map fun k => groupSum f g l k).sum = (l.map g).sum := by
  induction l with
  | nil => simp [keysOf, groupSum]
  | cons a l ih =>
    simp only [keysOf]
    split
    · next h =>
      have hmap : ((keysOf f l).map fun k => groupSum f g (a :: l) k) =
          (keysOf f l).map fun k =>
            if k = f a then g a + groupSum f g l k else groupSum f g l k := by
        refine List.map_congr_left fun k _ => ?_
        rw [groupSum_cons]
        by_cases hk : f a = k
        · rw [if_pos hk, if_pos hk.symm]
        · rw [if_neg hk, if_neg fun hk2 => hk hk2.symm]
      rw [hmap, sum_map_if_mem (keysOf_nodup f l) h, ih]
      simp
    · next h =>
      simp only [List.map_cons, List.sum_cons]
      have h0 : groupSum f g (a :: l) (f a) = g a := by
        have hz : groupSum f g l (f a) = 0 := by
          refine groupSum_eq_zero (fun b hb hfb => h ?_) g
          rw [mem_keysOf, ← hfb]
          exact List.mem_map_of_mem f hb
        rw [groupSum_cons, if_pos rfl, hz, add_zero]
      have hmap : ((keysOf f l).map fun k => groupSum f g (a :: l) k) =
          (keysOf f l).map fun k => groupSum f g l k := by
        refine List.map_congr_left fun k hk => ?_
        rw [groupSum_cons, if_neg (fun hfa : f a = k => h (by rw [hfa]; exact hk))]
      rw [h0, hmap, ih]

/-!
## Normalization lemmas
-/

theorem col_map_val (n : String) :
    col_map n ∈ ["estufa", "caixas", "caixas_segunda", "data"] ∨ col_map n = n := by
  unfold col_map
  split_ifs <;> simp

theorem col_map_idem (n : String) : col_map (col_map n) = col_map n := by
  rcases col_map_val n with h | h
  · simp only [List.mem_cons, List.mem_singleton, List.not_mem_nil, or_false] at h
    rcases h with h | h | h | h <;> rw [h] <;> decide
  · rw [h]
    exact h

theorem dateNorm_idem (c : Cell) : dateNorm (dateNorm c) = dateNorm c := by
  unfold dateNorm
  cases h : to_datetime c <;> rfl

theorem nrows_renameCols (df : Df) : (renameCols df).nrows = df.nrows := rfl

theorem nrows_coerceDates (df : Df) : (coerceDates df).nrows = df.nrows := by
  unfold coerceDates
  split <;> rfl

theorem nrows_ensureCol (df : Df) (n : String) (f : Cell) :
    (ensureCol n f df).nrows = df.nrows := by
  unfold ensureCol
  split <;> rfl

theorem names_coerceDates (df : Df) : (coerceDates df).names = df.names := by
  unfold coerceDates
  split
  · show (df.cols.map _).map Prod.fst = df.cols.map Prod.fst
    simp only [List.map_map]
    refine List.map_congr_left fun p hp => ?_
    by_cases hd : p.1 = "data" <;> simp [hd, Function.comp]
  · rfl

theorem mem_names_ensureCol {df : Df} {m n : String} {f : Cell} :
    m ∈ (ensureCol n f df).names ↔ m ∈ df.names ∨ m = n := by
  unfold ensureCol
  split
  · next h =>
    constructor
    · exact Or.inl
    · rintro (h1 | rfl)
      · exact h1
      · exact h
  · next h =>
    show m ∈ (df.cols ++ [(n, List.replicate df.nrows f)]).map Prod.fst ↔ _
    simp [Df.names]

theorem mem_cols_ensureCol {df : Df} {n : String} {f : Cell}
    {p : String × List Cell} (hp : p ∈ (ensureCol n f df).cols) :
    p ∈ df.cols ∨ p = (n, List.replicate df.nrows f) := by
  unfold ensureCol at hp
  split at hp
  · exact Or.inl hp
  · rcases List.mem_append.mp hp with h | h
    · exact Or.inl h
    · exact Or.inr (List.mem_singleton.mp h)

theorem mem_cols_coerceDates {df : Df} {p : String × List Cell}
    (hp : p ∈ (coerceDates df).cols) :
    ∃ q ∈ df.cols, p.1 = q.1 ∧ (p.2 = q.2 ∨ p.2 = q.2.map dateNorm) := by
  unfold coerceDates at hp
  split at hp
  · rcases List.mem_map.mp hp with ⟨q, hq, hpq⟩
    by_cases hd : q.1 = "data"
    · rw [if_pos hd] at hpq
      exact ⟨q, hq, by rw [← hpq], Or.inr (by rw [← hpq])⟩
    · rw [if_neg hd] at hpq
      exact ⟨q, hq, by rw [← hpq], Or.inl (by rw [← hpq])⟩
  · exact ⟨p, hp, rfl, Or.inl rfl⟩

theorem renameCols_eq_self {df : Df} (h : ColNamesFixed df) : renameCols df = df := by
  have hm : df.cols.map (fun p => (col_map p.1, p.2)) = df.cols := by
    have h1 : df.cols.map (fun p => (col_map p.1, p.2)) = df.cols.map id :=
      List.map_congr_left fun p hp => by rw [h p hp]; rfl
    rw [h1, List.map_id]
  unfold renameCols
  rw [hm]

theorem coerceDates_eq_self {df : Df} (h : DataFixed df) : coerceDates df = df := by
  unfold coerceDates
  split
  · have hm : df.cols.map
        (fun p => if p.1 = "data" then (p.1, p.2.map dateNorm) else p) = df.cols := by
      have h1 : df.cols.map
          (fun p => if p.1 = "data" then (p.1, p.2.map dateNorm) else p) =
          df.cols.map id := by
        refine List.map_congr_left fun p hp => ?_
        by_cases hd : p.1 = "data"
        · rw [if_pos hd]
          have h2 : p.2.map dateNorm = p.2 := by
            have h3 : p.2.map dateNorm = p.2.map id :=
              List.map_congr_left fun c hc => h p hp hd c hc
            rw [h3, List.map_id]
          rw [h2]
          rfl
        · rw [if_neg hd]
          rfl
      rw [h1, List.map_id]
    rw [hm]
  · rfl

theorem ensureCol_eq_self {df : Df} {n : String} {f : Cell}
    (h : n ∈ df.names) : ensureCol n f df = df := by
  unfold ensureCol
  rw [if_pos h]

/-- The `foldl` over the numeric fill-in columns, written out. -/
theorem normalizar_colunas_eq (df : Df) :
    normalizar_colunas df =
      ensureCol "cultura" (Cell.str "")
        (ensureCol "estufa" (Cell.str "")
          (ensureCol "chuva" (Cell.num 0)
            (ensureCol "umidade" (Cell.num 0)
              (ensureCol "temperatura" (Cell.num 0)
                (ensureCol "caixas_segunda" (Cell.num 0)
                  (ensureCol "caixas" (Cell.num 0)
                    (coerceDates (renameCols df)))))))) := by
  simp only [normalizar_colunas, numericCols, List.foldl_cons, List.foldl_nil]

theorem colNamesFixed_ensureCol {df : Df} {n : String} {f : Cell}
    (h : ColNamesFixed df) (hn : col_map n = n) :
    ColNamesFixed (ensureCol n f df) := by
  intro p hp
  rcases mem_cols_ensureCol hp with hp | rfl
  · exact h p hp
  · exact hn

theorem dataFixed_ensureCol {df : Df} {n : String} {f : Cell}
    (h : DataFixed df) (hn : n ≠ "data") : DataFixed (ensureCol n f df) := by
  intro p hp hd
  rcases mem_cols_ensureCol hp with hp | rfl
  · exact h p hp hd
  · exact absurd hd hn

theorem colNamesFixed_coerce_rename (df : Df) :
    ColNamesFixed (coerceDates (renameCols df)) := by
  intro p hp
  rcases mem_cols_coerceDates hp with ⟨q, hq, hpq, -⟩
  rw [hpq]
  rcases List.mem_map.mp hq with ⟨r, -, hr⟩
  rw [← hr]
  exact col_map_idem r.1

theorem dataFixed_coerceDates (df : Df) : DataFixed (coerceDates df) := by
  intro p hp hd c hc
  unfold coerceDates at hp
  split at hp
  · rcases List.mem_map.mp hp with ⟨q, -, hpq⟩
    by_cases hq : q.1 = "data"
    · rw [if_pos hq] at hpq
      have hc2 : c ∈ q.2.map dateNorm := by rw [← hpq] at hc; exact hc
      rcases List.mem_map.mp hc2 with ⟨c0, -, hc0⟩
      rw [← hc0]
      exact dateNorm_idem c0
    · rw [if_neg hq] at hpq
      rw [← hpq] at hd
      exact absurd hd hq
  · next hnames =>
    exact absurd (hd ▸ List.mem_map_of_mem Prod.fst hp) hnames

theorem colNamesFixed_normalizar (df : Df) :
    ColNamesFixed (normalizar_colunas df) := by
  rw [normalizar_colunas_eq]
  refine colNamesFixed_ensureCol (colNamesFixed_ensureCol
    (colNamesFixed_ensureCol (colNamesFixed_ensureCol (colNamesFixed_ensureCol
      (colNamesFixed_ensureCol (colNamesFixed_ensureCol
        (colNamesFixed_coerce_rename df) ?_) ?_) ?_) ?_) ?_) ?_) ?_ <;> decide

theorem dataFixed_normalizar (df : Df) : DataFixed (normalizar_colunas df) := by
  rw [normalizar_colunas_eq]
  refine dataFixed_ensureCol (dataFixed_ensureCol
    (dataFixed_ensureCol (dataFixed_ensureCol (dataFixed_ensureCol
      (dataFixed_ensureCol (dataFixed_ensureCol
        (dataFixed_coerceDates (renameCols df)) ?_) ?_) ?_) ?_) ?_) ?_) ?_ <;> decide

theorem canonPresent_normalizar (df : Df) :
    CanonPresent (normalizar_colunas df) := by
  rw [normalizar_colunas_eq]
  intro n hn
  simp only [numericCols, List.cons_append, List.nil_append, List.mem_cons,
    List.not_mem_nil, or_false] at hn
  rcases hn with rfl | rfl | rfl | rfl | rfl | rfl | rfl <;>
    simp only [mem_names_ensureCol] <;> tauto

theorem normalizar_eq_self {d : Df} (h1 : ColNamesFixed d) (h2 : DataFixed d)
    (h3 : CanonPresent d) : normalizar_colunas d = d := by
  have hmem : ∀ n ∈ numericCols ++ ["estufa", "cultura"], n ∈ d.names := h3
  rw [normalizar_colunas_eq, renameCols_eq_self h1, coerceDates_eq_self h2,
    ensureCol_eq_self (hmem "caixas" (by decide)),
    ensureCol_eq_self (hmem "caixas_segunda" (by decide)),
    ensureCol_eq_self (hmem "temperatura" (by decide)),
    ensureCol_eq_self (hmem "umidade" (by decide)),
    ensureCol_eq_self (hmem "chuva" (by decide)),
    ensureCol_eq_self (hmem "estufa" (by decide)),
    ensureCol_eq_self (hmem "cultura" (by decide))]

/-- C4. For every raw record set `R`, `normalize(normalize(R)) ==
normalize(R)`: applying schema normalization to an already-normalized record
set changes nothing — column names, fill values and date strings are all
fixed points. -/
theorem C4_normalizar_idempotente (df : Df) :
    normalizar_colunas (normalizar_colunas df) = normalizar_colunas df :=
  normalizar_eq_self (colNamesFixed_normalizar df) (dataFixed_normalizar df)
    (canonPresent_normalizar df)

/-!
## Column lookup after normalization (for the fill-in defaults)
-/

theorem find?_cols_eq_none {df : Df} {n : String} (h : n ∉ df.names) :
    df.cols.find? (fun p => decide (p.1 = n)) = none := by
  rw [List.find?_eq_none]
  intro p hp
  simp only [decide_eq_true_eq]
  exact fun hpn => h (hpn ▸ List.mem_map_of_mem Prod.fst hp)

theorem getCol_ensureCol_self {df : Df} {n : String} {f : Cell}
    (h : n ∉ df.names) :
    getCol (ensureCol n f df) n = some (List.replicate df.nrows f) := by
  unfold ensureCol getCol
  rw [if_neg h]
  show ((df.cols ++ [(n, List.replicate df.nrows f)]).find? _).map Prod.snd = _
  rw [List.find?_append, find?_cols_eq_none h]
  simp

theorem getCol_ensureCol_ne {df : Df} {m n : String} {f : Cell} (h : m ≠ n) :
    getCol (ensureCol n f df) m = getCol df m := by
  unfold ensureCol
  split
  · rfl
  · unfold getCol
    show ((df.cols ++ [(n, List.replicate df.nrows f)]).find? _).map Prod.snd = _
    rw [List.find?_append]
    have h1 : List.find? (fun p => decide (p.1 = m))
        [(n, List.replicate df.nrows f)] = none := by
      have h2 : ¬(n = m) := fun h2 => h h2.symm
      simp [h2]
    rw [h1, Option.or_none]

theorem find?_coerce_map (m : String) (h : m ≠ "data")
    (cols : List (String × List Cell)) :
    (cols.map (fun p => if p.1 = "data" then (p.1, p.2.map dateNorm) else p)).find?
        (fun p => decide (p.1 = m)) =
      cols.find? (fun p => decide (p.1 = m)) := by
  induction cols with
  | nil => rfl
  | cons p cols ih =>
    by_cases hd : p.1 = "data"
    · have hm : ¬(p.1 = m) := fun hm => h (hm ▸ hd)
      rw [List.map_cons, if_pos hd,
        List.find?_cons_of_neg _ (by simpa using hm),
        List.find?_cons_of_neg _ (by simpa using hm)]
      exact ih
    · rw [List.map_cons, if_neg hd]
      by_cases hpm : p.1 = m
      · rw [List.find?_cons_of_pos _ (by simpa using hpm),
          List.find?_cons_of_pos _ (by simpa using hpm)]
      · rw [List.find?_cons_of_neg _ (by simpa using hpm),
          List.find?_cons_of_neg _ (by simpa using hpm)]
        exact ih

theorem getCol_coerceDates_ne {df : Df} {m : String} (h : m ≠ "data") :
    getCol (coerceDates df) m = getCol df m := by
  unfold coerceDates
  split
  · unfold getCol
    show ((df.cols.map _).find? _).map Prod.snd = _
    rw [find?_coerce_map m h]
  · rfl

theorem nrows_ensureChain (l : List (String × Cell)) (d : Df) :
    (ensureChain l d).nrows = d.nrows := by
  induction l generalizing d with
  | nil => rfl
  | cons x l ih =>
    show (ensureChain l (ensureCol x.1 x.2 d)).nrows = d.nrows
    rw [ih, nrows_ensureCol]

theorem getCol_ensureChain_not_mem {l : List (String × Cell)} {d : Df}
    {n : String} (h : n ∉ l.map Prod.fst) :
    getCol (ensureChain l d) n = getCol d n := by
  induction l generalizing d with
  | nil => rfl
  | cons x l ih =>
    simp only [List.map_cons, List.mem_cons, not_or] at h
    show getCol (ensureChain l (ensureCol x.1 x.2 d)) n = getCol d n
    rw [ih h.2, getCol_ensureCol_ne h.1]

theorem getCol_ensureChain_mem {l : List (String × Cell)} {d : Df}
    {n : String} {f : Cell} (hl : (l.map Prod.fst).Nodup) (hmem : (n, f) ∈ l)
    (h : n ∉ d.names) :
    getCol (ensureChain l d) n = some (List.replicate d.nrows f) := by
  induction l generalizing d with
  | nil => cases hmem
  | cons x l ih =>
    rcases List.mem_cons.mp hmem with hx | hx
    · show getCol (ensureChain l (ensureCol x.1 x.2 d)) n = _
      have hx1 : x.1 = n := by rw [← hx]
      have hnin : n ∉ l.map Prod.fst := by
        rw [← hx1]
        exact (List.nodup_cons.mp
          (show (x.1 :: l.map Prod.fst).Nodup from hl)).1
      rw [getCol_ensureChain_not_mem hnin, ← hx]
      exact getCol_ensureCol_self h
    · show getCol (ensureChain l (ensureCol x.1 x.2 d)) n = _
      have hnd := List.nodup_cons.mp
        (show (x.1 :: l.map Prod.fst).Nodup from hl)
      have hne : n ≠ x.1 := by
        intro hnx
        exact hnd.1 (hnx ▸ List.mem_map_of_mem Prod.fst hx)
      have hnotin : n ∉ (ensureCol x.1 x.2 d).names := by
        rw [mem_names_ensureCol]
        rintro (h1 | h1)
        · exact h h1
        · exact hne h1
      rw [ih hnd.2 hx hnotin, nrows_ensureCol]

theorem normalizar_eq_ensureChain (df : Df) :
    normalizar_colunas df =
      ensureChain fillCols (coerceDates (renameCols df)) := by
  simp only [normalizar_colunas, numericCols, List.foldl_cons, List.foldl_nil,
    ensureChain, fillCols]

/-!
## Sum helpers
-/

theorem sum_map_add (l : List α) (f g : α → ℚ) :
    (l.map fun a => f a + g a).sum = (l.map f).sum + (l.map g).sum := by
  induction l with
  | nil => simp
  | cons a l ih => simp only [List.map_cons, List.sum_cons, ih]; ring

theorem sum_map_mul_const (l : List α) (f : α → ℚ) (c : ℚ) :
    (l.map fun a => f a * c).sum = (l.map f).sum * c := by
  induction l with
  | nil => simp
  | cons a l ih => simp only [List.map_cons, List.sum_cons, ih]; ring

theorem sum_map_filter_partition (l : List α) (p : α → Prop) [DecidablePred p]
    (g : α → ℚ) :
    ((l.filter fun a => decide (p a)).map g).sum +
      ((l.filter fun a => decide (¬p a)).map g).sum = (l.map g).sum := by
  induction l with
  | nil => simp
  | cons a l ih =>
    by_cases h : p a
    · rw [List.filter_cons, List.filter_cons,
        if_pos (show decide (p a) = true by simpa using h),
        if_neg (show ¬decide (¬p a) = true by simp [h]),
        List.map_cons, List.sum_cons, List.map_cons, List.sum_cons, ← ih]
      ring
    · rw [List.filter_cons, List.filter_cons,
        if_neg (show ¬decide (p a) = true by simp [h]),
        if_pos (show decide (¬p a) = true by simpa using h),
        List.map_cons, List.sum_cons, List.map_cons, List.sum_cons, ← ih]
      ring

/-!
## The claims
-/

/-- C9. Normalization creates each missing canonical numeric column filled
with zero and each missing canonical text column filled with the empty
string, and maps every unparseable date value to the null-date sentinel
instead of raising. -/
theorem C9_normalizacao_preenche (df : Df) (n : String) :
    (n ∈ numericCols → n ∉ (renameCols df).names →
      getCol (normalizar_colunas df) n =
        some (List.replicate df.nrows (Cell.num 0))) ∧
    (n ∈ ["estufa", "cultura"] → n ∉ (renameCols df).names →
      getCol (normalizar_colunas df) n =
        some (List.replicate df.nrows (Cell.str ""))) ∧
    (∀ s : String, parseDateString s = none →
      dateNorm (Cell.str s) = Cell.null) := by
  have hmiss2 : ∀ m : String, m ∉ (renameCols df).names →
      m ∉ (coerceDates (renameCols df)).names := by
    intro m hm
    rw [names_coerceDates]
    exact hm
  have hnr : (coerceDates (renameCols df)).nrows = df.nrows := by
    rw [nrows_coerceDates, nrows_renameCols]
  refine ⟨?_, ?_, ?_⟩
  · intro hn hmiss
    rw [normalizar_eq_ensureChain]
    have hfill : (n, Cell.num 0) ∈ fillCols := by
      simp only [numericCols, List.mem_cons, List.not_mem_nil, or_false] at hn
      rcases hn with rfl | rfl | rfl | rfl | rfl <;> decide
    rw [getCol_ensureChain_mem (by decide) hfill (hmiss2 n hmiss), hnr]
  · intro hn hmiss
    rw [normalizar_eq_ensureChain]
    have hfill : (n, Cell.str "") ∈ fillCols := by
      simp only [List.mem_cons, List.not_mem_nil, or_false] at hn
      rcases hn with rfl | rfl <;> decide
    rw [getCol_ensureChain_mem (by decide) hfill (hmiss2 n hmiss), hnr]
  · intro s hs
    simp [dateNorm, to_datetime, hs]

/-- Witness for C9 at a concrete raw table: `temperatura` is created filled
with zeros, `cultura` with empty strings, and the unparseable date cell
becomes the null sentinel. -/
theorem C9_normalizacao_preenche_witness :
    ("temperatura" ∈ numericCols ∧
      "temperatura" ∉ (renameCols rawDf).names ∧
      getCol (normalizar_colunas rawDf) "temperatura" =
        some (List.replicate rawDf.nrows (Cell.num 0))) ∧
    ("cultura" ∈ (["estufa", "cultura"] : List String) ∧
      getCol (normalizar_colunas rawDf) "cultura" =
        some (List.replicate rawDf.nrows (Cell.str ""))) ∧
    (parseDateString "sem data" = none ∧
      dateNorm (Cell.str "sem data") = Cell.null) :=
  ⟨⟨by decide, by decide,
      (C9_normalizacao_preenche rawDf "temperatura").1 (by decide) (by decide)⟩,
   ⟨by decide,
      (C9_normalizacao_preenche rawDf "cultura").2.1 (by decide) (by decide)⟩,
   ⟨by decide,
      (C9_normalizacao_preenche rawDf "cultura").2.2 "sem data" (by decide)⟩⟩

/-- C1 counterexample: with no price entry for crop `Kale` (none exists —
there is no price table at all), default price `30`, and production of 10
grade-1 and 5 grade-2 boxes, the code computes revenue `10 × 30 = 300`
(grade-2 boxes earn nothing), not the claimed `375`. -/
theorem C1_counterexample_kale :
    receita_total preco_medio_caixa_default kaleProd = 300 ∧
    ((receita_por_cultura preco_medio_caixa_default kaleProd).map
      fun p => p.2.2).sum = 300 ∧
    (300 : ℚ) ≠ 375 := by
  refine ⟨?_, ?_, by norm_num⟩
  · norm_num [receita_total, total_caixas, kaleProd, mkProd,
      preco_medio_caixa_default]
  · norm_num [receita_por_cultura, keysOf, groupSum, kaleProd, mkProd,
      preco_medio_caixa_default, List.filter_cons]

/-- C1 (amended). Revenue is computed from grade-1 box counts only, at one
global configured price applied uniformly to every crop (the source has no
per-crop or per-grade price table): the total revenue is
`(Σ grade-1 boxes) × price`, and the per-crop revenue entries sum to exactly
that total. -/
theorem C1_receita_preco_unico (preco : ℚ) (prod : List Producao) :
    receita_total preco prod = (prod.map Producao.caixas).sum * preco ∧
    ((receita_por_cultura preco prod).map fun p => p.2.2).sum =
      receita_total preco prod := by
  constructor
  · rfl
  · have h1 : ((receita_por_cultura preco prod).map fun p => p.2.2) =
        (keysOf Producao.cultura prod).map
          fun k => groupSum Producao.cultura Producao.caixas prod k * preco := by
      simp [receita_por_cultura, List.map_map, Function.comp]
    rw [h1, sum_map_mul_const, sum_groupSum]
    rfl

/-- C2 counterexample: with no production records and one cost record worth
100, `lucro_estimado` is `0` — the Python truthiness guard
`if receita_estimada else 0` short-circuits on zero revenue — not the
claimed `−total_cost = −100`. -/
theorem C2_counterexample_lucro_zero :
    total_insumos ins100 = 100 ∧
    lucro_estimado preco_medio_caixa_default [] ins100 = 0 ∧
    (0 : ℚ) ≠ -100 := by
  refine ⟨?_, ?_, by norm_num⟩
  · norm_num [total_insumos, ins100, mkIns]
  · norm_num [lucro_estimado, receita_estimada, total_caixas]

/-- C2 (amended). With an empty production record set the revenue is `0`
and the estimated profit is also `0` (the zero revenue is falsy, selecting
the `else 0` branch), not the negated total cost. -/
theorem C2_lucro_estimado_vazio (preco : ℚ) (ins : List Insumo) :
    receita_estimada preco [] = 0 ∧ lucro_estimado preco [] ins = 0 := by
  have h : receita_estimada preco [] = 0 := by
    simp [receita_estimada, total_caixas]
  exact ⟨h, by simp [lucro_estimado, h]⟩

/-- C3. For every record set with fewer than 5 records, `forecast` returns
the insufficient-data result variant without invoking either strategy (the
statement quantifies over all strategy bodies) and never raises. -/
theorem C3_forecast_insuficiente
    (simpleStrategy regressionStrategy : List Producao → ForecastResult)
    (records : List Producao) (h : records.length < 5) :
    forecast simpleStrategy regressionStrategy records =
      ForecastResult.insufficientData := by
  rw [forecast, if_pos h]

/-- Witness for C3 on a concrete 4-record set and concrete strategies. -/
theorem C3_forecast_insuficiente_witness :
    fourRecords.length < 5 ∧
    forecast (fun _ => ForecastResult.analysisError "a")
      (fun _ => ForecastResult.analysisError "b") fourRecords =
      ForecastResult.insufficientData :=
  ⟨by decide, C3_forecast_insuficiente _ _ fourRecords (by decide)⟩

/-- C5 counterexample: in the per-crop profitability table, a crop with
revenue but no cost rows gets `custo_total = 0` from the left-join
`fillna(0)`, and its `ROI = Lucro/custo_total × 100` is `+inf` — an
unflagged infinite value, not the claimed fallback `0`. -/
theorem C5_counterexample_roi_infinito :
    (rentabilidade preco_medio_caixa_default tomateProd alfaceIns).map
      RentRow.roi = [PFloat.pinf] ∧
    PFloat.pinf ≠ PFloat.val 0 := by
  have hd1 : (decide ("Alface" = "Tomate")) = false := rfl
  have hd2 : (decide ("Tomate" = "Tomate")) = true := rfl
  have hcm : custoMerged alfaceIns "Tomate" = 0 := by
    simp [custoMerged, custos_por_cultura, alfaceIns, mkIns, keysOf,
      List.find?, hd1]
  constructor
  · norm_num [rentabilidade, keysOf, groupSum, tomateProd, mkProd,
      preco_medio_caixa_default, pdiv, pscale, rnd, List.filter_cons, hcm,
      hd2]
  · simp

/-- C5 (amended). The overall margin is guarded: whenever the total revenue
is `0` the code returns the documented fallback `0` and never raises; the
per-crop `Margem`/`ROI` and the cost-per-box ratio, however, are unguarded
float divisions that produce `inf`/`NaN` on a zero denominator. -/
theorem C5_margem_total_guardada (preco : ℚ) (prod : List Producao)
    (ins : List Insumo) (h : receita_total preco prod = 0) :
    margem_total preco prod ins = 0 := by
  simp [margem_total, h]

/-- Witness for C5 (amended) at empty production. -/
theorem C5_margem_total_guardada_witness :
    receita_total preco_medio_caixa_default [] = 0 ∧
    margem_total preco_medio_caixa_default [] ins100 = 0 :=
  ⟨by norm_num [receita_total, total_caixas],
    C5_margem_total_guardada _ _ ins100
      (by norm_num [receita_total, total_caixas])⟩

/-- C6 counterexample: in the per-crop table `prod_cultura`, the `% 2ª`
column divides without a guard, so a group whose grade-1 and grade-2 counts
are all zero gets `0/0 = NaN`, not the claimed `0`. -/
theorem C6_counterexample_pct2_nan :
    (prod_cultura zeroProd).map CulturaRow.pct2 = [PFloat.nan] ∧
    PFloat.nan ≠ PFloat.val 0 := by
  constructor
  · norm_num [prod_cultura, keysOf, groupSum, zeroProd, mkProd, pdiv, pscale,
      rnd, List.filter_cons]
  · simp

/-- C6 (amended). The guarded row-level `pct_segunda` (computed with
`np.where`) equals `grade2/(grade1+grade2) × 100` when the total is
positive, is exactly `0` when both counts are `0`, and lies in `[0, 100]`
for non-negative counts; the per-crop `% 2ª` column, by contrast, is `NaN`
(not `0`) for an all-zero group. -/
theorem C6_pct_segunda_propriedades (c s : ℚ) (hc : 0 ≤ c) (hs : 0 ≤ s) :
    0 ≤ pct_segunda c s ∧ pct_segunda c s ≤ 100 ∧
    (c = 0 → s = 0 → pct_segunda c s = 0) ∧
    (0 < c + s → pct_segunda c s = s / (c + s) * 100) := by
  refine ⟨?_, ?_, ?_, ?_⟩
  · unfold pct_segunda
    split
    · next h =>
      exact mul_nonneg (div_nonneg hs (le_of_lt h)) (by norm_num)
    · exact le_refl 0
  · unfold pct_segunda
    split
    · next h =>
      have h1 : s / (c + s) ≤ 1 := (div_le_one h).mpr (by linarith)
      calc s / (c + s) * 100 ≤ 1 * 100 :=
            mul_le_mul_of_nonneg_right h1 (by norm_num)
        _ = 100 := by norm_num
    · norm_num
  · intro hc0 hs0
    unfold pct_segunda
    rw [hc0, hs0]
    norm_num
  · intro h
    unfold pct_segunda
    rw [if_pos h]

/-- Witness for C6 (amended) at 8 grade-1 and 2 grade-2 boxes. -/
theorem C6_pct_segunda_propriedades_witness :
    (0 : ℚ) ≤ 8 ∧ (0 : ℚ) ≤ 2 ∧ 0 ≤ pct_segunda 8 2 ∧
    pct_segunda 8 2 ≤ 100 ∧ pct_segunda 8 2 = 2 / (8 + 2) * 100 :=
  ⟨by norm_num, by norm_num,
    (C6_pct_segunda_propriedades 8 2 (by norm_num) (by norm_num)).1,
    (C6_pct_segunda_propriedades 8 2 (by norm_num) (by norm_num)).2.1,
    (C6_pct_segunda_propriedades 8 2 (by norm_num) (by norm_num)).2.2.2
      (by norm_num)⟩

/-- C7. For every stored input-cost record: when the typed `custo_total` is
zero and both quantity and unit cost are positive, the stored total is
`unit_cost × quantity`; a positive typed total is stored unchanged. -/
theorem C7_custo_total_invariante (qtd cu ct : ℚ) :
    (ct = 0 → 0 < qtd → 0 < cu →
      custo_total_salvo qtd cu ct = cu * qtd) ∧
    (0 < ct → custo_total_salvo qtd cu ct = ct) := by
  constructor
  · intro h0 hq hu
    have hcond : 0 < cu ∧ 0 < qtd ∧ ct = 0 := ⟨hu, hq, h0⟩
    simp only [custo_total_salvo, if_pos hcond, if_pos (mul_pos hu hq)]
  · intro hct
    have hcond : ¬(0 < cu ∧ 0 < qtd ∧ ct = 0) := by
      rintro ⟨-, -, h0⟩
      rw [h0] at hct
      exact lt_irrefl 0 hct
    simp only [custo_total_salvo, if_neg hcond, if_pos hct]

/-- Witness for C7: auto-computed total `2 × 5 = 10`, and a typed total `7`
kept as typed. -/
theorem C7_custo_total_invariante_witness :
    (0 : ℚ) < 5 ∧ (0 : ℚ) < 2 ∧ (0 : ℚ) < 7 ∧
    custo_total_salvo 5 2 0 = 2 * 5 ∧ custo_total_salvo 5 2 7 = 7 :=
  ⟨by norm_num, by norm_num, by norm_num,
    (C7_custo_total_invariante 5 2 0).1 rfl (by norm_num) (by norm_num),
    (C7_custo_total_invariante 5 2 7).2 (by norm_num)⟩

/-- C8. The aggregate total equals the sum over all records of
`caixas + caixas_segunda`, regardless of grouping: the full-set KPI pair
sums to it, any grouping's per-group totals sum to it, and so does the
`Total` column of the per-crop table. -/
theorem C8_total_agregado (prod : List Producao) (f : Producao → String) :
    total_caixas prod + total_segunda prod =
      (prod.map fun r => r.caixas + r.caixas_segunda).sum ∧
    ((keysOf f prod).map fun k =>
        groupSum f (fun r => r.caixas + r.caixas_segunda) prod k).sum =
      (prod.map fun r => r.caixas + r.caixas_segunda).sum ∧
    ((prod_cultura prod).map CulturaRow.total).sum =
      (prod.map fun r => r.caixas + r.caixas_segunda).sum := by
  refine ⟨?_, sum_groupSum _ _ _, ?_⟩
  · rw [total_caixas, total_segunda, ← sum_map_add]
  · have h1 : (prod_cultura prod).map CulturaRow.total =
        (keysOf Producao.cultura prod).map fun k =>
          groupSum Producao.cultura Producao.caixas prod k +
            groupSum Producao.cultura Producao.caixas_segunda prod k := by
      simp [prod_cultura, List.map_map, Function.comp]
    have h2 : ∀ k, groupSum Producao.cultura Producao.caixas prod k +
        groupSum Producao.cultura Producao.caixas_segunda prod k =
        groupSum Producao.cultura (fun r => r.caixas + r.caixas_segunda)
          prod k := by
      intro k
      rw [groupSum, groupSum, groupSum, ← sum_map_add]
    rw [h1, List.map_congr_left fun k _ => h2 k, sum_groupSum]

/-- C10. Per-crop profitability left-joins costs onto the crops present in
production: a crop occurring only in cost records is absent from the
per-crop table, while its costs still enter the overall total cost and
profit (the profit subtracts the cost sum over both the matching and the
non-matching cost records). -/
theorem C10_rentabilidade_left_join (preco : ℚ) (prod : List Producao)
    (ins : List Insumo) (k : String) (h1 : ∀ r ∈ prod, r.cultura ≠ k)
    (h2 : ∃ i ∈ ins, i.cultura = k) :
    (∀ row ∈ rentabilidade preco prod ins, row.cultura ≠ k) ∧
    lucro_total preco prod ins =
      receita_total preco prod -
        (((ins.filter fun i => decide (i.cultura = k)).map
            Insumo.custo_total).sum +
         ((ins.filter fun i => decide (¬i.cultura = k)).map
            Insumo.custo_total).sum) := by
  constructor
  · intro row hrow hk
    rcases List.mem_map.mp hrow with ⟨k2, hk2, hrw⟩
    have hck : k2 = k := by rw [← hk, ← hrw]
    subst hck
    rcases List.mem_map.mp (mem_keysOf.mp hk2) with ⟨r, hr, hrk⟩
    exact h1 r hr hrk
  · rw [lucro_total, total_insumos, sum_map_filter_partition]

/-- Witness for C10: crop `Alface` has only cost records; it is absent from
the profitability table while its 50 of cost still reduces the profit. -/
theorem C10_rentabilidade_left_join_witness :
    (∀ r ∈ tomateProd, r.cultura ≠ "Alface") ∧
    (∃ i ∈ alfaceIns, i.cultura = "Alface") ∧
    (∀ row ∈ rentabilidade preco_medio_caixa_default tomateProd alfaceIns,
      row.cultura ≠ "Alface") ∧
    lucro_total preco_medio_caixa_default tomateProd alfaceIns =
      receita_total preco_medio_caixa_default tomateProd -
        (((alfaceIns.filter fun i => decide (i.cultura = "Alface")).map
            Insumo.custo_total).sum +
         ((alfaceIns.filter fun i => decide (¬i.cultura = "Alface")).map
            Insumo.custo_total).sum) :=
  ⟨by decide, by decide,
    (C10_rentabilidade_left_join preco_medio_caixa_default tomateProd
      alfaceIns "Alface" (by decide) (by decide)).1,
    (C10_rentabilidade_left_join preco_medio_caixa_default tomateProd
      alfaceIns "Alface" (by decide) (by decide)).2⟩

end AnaliseExcel
